import Mathlib

/-!
Verification of the Naeyam home-nursing schema and application.

This development shallowly embeds the repository's database migration
(the seven tables, their constraints, and their row-level security
policies) and the application's language-toggle logic, and proves the
specification's testable properties against that embedding.

Modelling conventions:
* `uuid` columns are modelled as `Nat`; `text` as `String`;
  `time` columns as seconds since midnight (`Nat`); `date` as `String`.
* Nullable columns (no `NOT NULL` in the DDL) are `Option` types;
  `NOT NULL` columns are plain types.
* `created_at` / `updated_at` timestamp bookkeeping columns are omitted:
  no constraint or policy reads them.
* The foreign key `profiles.id REFERENCES auth.users(id)` points outside
  the migration's schema (into the identity provider) and is omitted.
* Each write operation takes the authenticated caller's identity
  (`auth.uid()`) and returns `some` of the new database state when the
  row-level-security `WITH CHECK` clause and every table constraint
  (primary key, foreign key, `CHECK`, `UNIQUE`) accept it, and `none`
  (statement fails, no partial effect) otherwise.
-/

namespace Naeyam

/-- `uuid` values are modelled as natural numbers. -/
abbrev Uuid := Nat

/-- A row of `profiles`:
`id uuid PRIMARY KEY`, `role text NOT NULL CHECK (role IN ('patient','nurse'))`,
`name text NOT NULL`, `phone text`, `address text`. -/
structure ProfileRow where
  id : Uuid
  role : String
  name : String
  phone : Option String := none
  address : Option String := none
deriving DecidableEq

/-- A row of `service_areas`:
`id uuid PRIMARY KEY`, `pincode text NOT NULL`, `service_id text NOT NULL`,
`is_available boolean DEFAULT true`, `UNIQUE(pincode, service_id)`. -/
structure ServiceAreaRow where
  id : Uuid
  pincode : String
  service_id : String
  is_available : Bool := true
deriving DecidableEq

/-- A row of `patient_profiles`:
`id uuid PRIMARY KEY REFERENCES profiles(id) ON DELETE CASCADE`, plus
nullable medical metadata and `text[]` columns defaulting to `'{}'`. -/
structure PatientProfileRow where
  id : Uuid
  date_of_birth : Option String := none
  gender : Option String := none
  blood_group : Option String := none
  emergency_contact_name : Option String := none
  emergency_contact_phone : Option String := none
  medical_conditions : List String := []
  allergies : List String := []
  current_medications : List String := []
deriving DecidableEq

/-- A row of `nurse_profiles`:
`id uuid PRIMARY KEY REFERENCES profiles(id) ON DELETE CASCADE`,
`qualification text NOT NULL`,
`years_of_experience integer NOT NULL DEFAULT 0`, plus `text[]` columns. -/
structure NurseProfileRow where
  id : Uuid
  qualification : String
  years_of_experience : Nat := 0
  specializations : List String := []
  languages_spoken : List String := []
deriving DecidableEq

/-- A row of `nurse_service_areas`:
`id uuid PRIMARY KEY`, `nurse_id uuid REFERENCES nurse_profiles(id) ON
DELETE CASCADE` (nullable), `pincode text NOT NULL`,
`is_active boolean DEFAULT true`, `UNIQUE(nurse_id, pincode)`. -/
structure NurseServiceAreaRow where
  id : Uuid
  nurse_id : Option Uuid
  pincode : String
  is_active : Bool := true
deriving DecidableEq

/-- A row of `nurse_slots`:
`id uuid PRIMARY KEY`, `nurse_id uuid REFERENCES nurse_profiles(id) ON
DELETE CASCADE` (nullable), `date date NOT NULL`,
`start_time time NOT NULL`, `end_time time NOT NULL`,
`status text NOT NULL CHECK (status IN
('available','booked','completed','cancelled')) DEFAULT 'available'`,
`CONSTRAINT valid_slot_time CHECK (end_time > start_time)`,
`CONSTRAINT one_hour_slot CHECK
(EXTRACT(EPOCH FROM end_time::time - start_time::time) = 3600)`.
Times of day are seconds since midnight. -/
structure NurseSlotRow where
  id : Uuid
  nurse_id : Option Uuid
  date : String
  start_time : Nat
  end_time : Nat
  status : String := "available"
deriving DecidableEq

/-- A row of `bookings`:
`id uuid PRIMARY KEY`,
`patient_id uuid REFERENCES patient_profiles(id) ON DELETE CASCADE`,
`nurse_id uuid REFERENCES nurse_profiles(id) ON DELETE CASCADE`,
`slot_id uuid REFERENCES nurse_slots(id) ON DELETE CASCADE`
(all three nullable), `service_id text NOT NULL`,
`status text NOT NULL CHECK (status IN
('pending','confirmed','completed','cancelled')) DEFAULT 'pending'`,
`notes text`. -/
structure BookingRow where
  id : Uuid
  patient_id : Option Uuid
  nurse_id : Option Uuid
  slot_id : Option Uuid
  service_id : String
  status : String := "pending"
  notes : Option String := none
deriving DecidableEq

/-- The database state: the seven tables of the migration, in creation
order. -/
structure DB where
  profiles : List ProfileRow := []
  service_areas : List ServiceAreaRow := []
  patient_profiles : List PatientProfileRow := []
  nurse_profiles : List NurseProfileRow := []
  nurse_service_areas : List NurseServiceAreaRow := []
  nurse_slots : List NurseSlotRow := []
  bookings : List BookingRow := []
deriving DecidableEq

/-- SQL equality on a nullable `uuid` column: `NULL = x` is never TRUE
(three-valued logic), so the comparison holds only when both operands are
non-null and equal. -/
def sqlEq (a b : Option Uuid) : Bool :=
  match a, b with
  | some x, some y => x == y
  | _, _ => false

/-- A nullable foreign-key column is satisfied when it is `NULL` or its
value appears among the parent table's primary keys. -/
def fkOk (v : Option Uuid) (parentIds : List Uuid) : Bool :=
  match v with
  | none => true
  | some x => parentIds.contains x

/-- Primary-key ids of `profiles`. -/
def DB.profileIds (db : DB) : List Uuid := db.profiles.map (·.id)

/-- Primary-key ids of `patient_profiles`. -/
def DB.patientProfileIds (db : DB) : List Uuid := db.patient_profiles.map (·.id)

/-- Primary-key ids of `nurse_profiles`. -/
def DB.nurseProfileIds (db : DB) : List Uuid := db.nurse_profiles.map (·.id)

/-- Primary-key ids of `nurse_slots`. -/
def DB.nurseSlotIds (db : DB) : List Uuid := db.nurse_slots.map (·.id)

/-- Insert into `profiles` by authenticated identity `uid`.
Policy "Users can insert their own profile": `WITH CHECK (auth.uid() = id)`.
Constraints: primary key on `id`, `CHECK (role IN ('patient','nurse'))`. -/
def insertProfile (uid : Uuid) (r : ProfileRow) (db : DB) : Option DB :=
  if (uid == r.id)
      && (r.role == "patient" || r.role == "nurse")
      && !(db.profileIds.contains r.id)
  then some { db with profiles := db.profiles ++ [r] }
  else none

/-- Insert into `patient_profiles` by authenticated identity `uid`.
Policy "Patients can insert their own profile": `WITH CHECK (auth.uid() = id)`.
Constraints: primary key on `id`, foreign key `id REFERENCES profiles(id)`,
`CHECK (gender IN ('male','female','other'))` on a nullable column
(`NULL` passes a `CHECK`). -/
def insertPatientProfile (uid : Uuid) (r : PatientProfileRow) (db : DB) :
    Option DB :=
  if (uid == r.id)
      && (match r.gender with
          | none => true
          | some g => g == "male" || g == "female" || g == "other")
      && !(db.patientProfileIds.contains r.id)
      && db.profileIds.contains r.id
  then some { db with patient_profiles := db.patient_profiles ++ [r] }
  else none

/-- Insert into `nurse_profiles` by authenticated identity `uid`.
Policy "Nurses can insert their own profile": `WITH CHECK (auth.uid() = id)`.
Constraints: primary key on `id`, foreign key `id REFERENCES profiles(id)`.
The DDL attaches no condition on the referenced row's `role`. -/
def insertNurseProfile (uid : Uuid) (r : NurseProfileRow) (db : DB) :
    Option DB :=
  if (uid == r.id)
      && !(db.nurseProfileIds.contains r.id)
      && db.profileIds.contains r.id
  then some { db with nurse_profiles := db.nurse_profiles ++ [r] }
  else none

/-- Insert into `service_areas` through a privileged (row-level-security
bypassing) connection: the migration attaches no INSERT/UPDATE/DELETE
policy to `service_areas`, so only such a path can write it, and table
constraints still apply: primary key on `id`, `UNIQUE(pincode, service_id)`. -/
def insertServiceAreaPrivileged (r : ServiceAreaRow) (db : DB) : Option DB :=
  if !(db.service_areas.any (fun p => p.id == r.id))
      && !(db.service_areas.any
            (fun p => p.pincode == r.pincode && p.service_id == r.service_id))
  then some { db with service_areas := db.service_areas ++ [r] }
  else none

/-- Update the `service_areas` row with id `target` to a new
`(pincode, service_id)` pair through a privileged connection.
If no row has id `target` the statement updates nothing and succeeds.
The `UNIQUE(pincode, service_id)` constraint rejects the update when
another row already carries the new pair. -/
def updateServiceAreaPrivileged (target : Uuid) (newPincode newService : String)
    (db : DB) : Option DB :=
  if db.service_areas.any (fun p => p.id == target) then
    if db.service_areas.any
        (fun p => p.id != target && p.pincode == newPincode
          && p.service_id == newService)
    then none
    else some { db with service_areas :=
      db.service_areas.map (fun p =>
        if p.id == target
        then { p with pincode := newPincode, service_id := newService }
        else p) }
  else some db

/-- Insert into `nurse_service_areas` by authenticated identity `uid`.
Policy "Nurses can manage their service areas" (`FOR ALL`):
`WITH CHECK (nurse_id = auth.uid())`, under SQL three-valued logic
(a `NULL` `nurse_id` never passes). Constraints: primary key on `id`,
foreign key `nurse_id REFERENCES nurse_profiles(id)`,
`UNIQUE(nurse_id, pincode)` (SQL semantics: `NULL` conflicts with nothing). -/
def insertNurseServiceArea (uid : Uuid) (r : NurseServiceAreaRow) (db : DB) :
    Option DB :=
  if sqlEq r.nurse_id (some uid)
      && fkOk r.nurse_id db.nurseProfileIds
      && !(db.nurse_service_areas.any (fun s => s.id == r.id))
      && !(db.nurse_service_areas.any
            (fun s => sqlEq s.nurse_id r.nurse_id && s.pincode == r.pincode))
  then some { db with nurse_service_areas := db.nurse_service_areas ++ [r] }
  else none

/-- Update the pincode of the `nurse_service_areas` row with id `target`
by authenticated identity `uid`. The policy's `USING (nurse_id = auth.uid())`
hides other nurses' rows (the statement then updates nothing and succeeds);
on a visible row the `UNIQUE(nurse_id, pincode)` constraint rejects a
duplicate pair and `WITH CHECK (nurse_id = auth.uid())` re-applies. -/
def updateNurseServiceArea (uid : Uuid) (target : Uuid) (newPincode : String)
    (db : DB) : Option DB :=
  match db.nurse_service_areas.find? (fun s => s.id == target) with
  | none => some db
  | some old =>
    if sqlEq old.nurse_id (some uid) then
      if db.nurse_service_areas.any
          (fun s => s.id != target && sqlEq s.nurse_id old.nurse_id
            && s.pincode == newPincode)
      then none
      else some { db with nurse_service_areas :=
        db.nurse_service_areas.map (fun s =>
          if s.id == target then { s with pincode := newPincode } else s) }
    else some db

/-- Insert into `nurse_slots` by authenticated identity `uid`.
Policy "Nurses can manage their slots" (`FOR ALL`):
`WITH CHECK (nurse_id = auth.uid())` under SQL three-valued logic.
Constraints: primary key on `id`, foreign key
`nurse_id REFERENCES nurse_profiles(id)`, status `CHECK`,
`valid_slot_time CHECK (end_time > start_time)`, and
`one_hour_slot CHECK (EXTRACT(EPOCH FROM end_time - start_time) = 3600)`. -/
def insertNurseSlot (uid : Uuid) (r : NurseSlotRow) (db : DB) : Option DB :=
  if sqlEq r.nurse_id (some uid)
      && fkOk r.nurse_id db.nurseProfileIds
      && !(db.nurseSlotIds.contains r.id)
      && (r.status == "available" || r.status == "booked"
          || r.status == "completed" || r.status == "cancelled")
      && decide (r.start_time < r.end_time)
      && (r.end_time - r.start_time == 3600)
  then some { db with nurse_slots := db.nurse_slots ++ [r] }
  else none

/-- Update the times and status of the `nurse_slots` row with id `target`
by authenticated identity `uid`. Rows hidden by
`USING (nurse_id = auth.uid())` are not touched (the statement succeeds
vacuously); on a visible row the status `CHECK`, `valid_slot_time` and
`one_hour_slot` constraints re-apply to the updated values. -/
def updateNurseSlot (uid : Uuid) (target : Uuid)
    (newStart newEnd : Nat) (newStatus : String) (db : DB) : Option DB :=
  match db.nurse_slots.find? (fun s => s.id == target) with
  | none => some db
  | some old =>
    if sqlEq old.nurse_id (some uid) then
      if (newStatus == "available" || newStatus == "booked"
          || newStatus == "completed" || newStatus == "cancelled")
          && decide (newStart < newEnd)
          && (newEnd - newStart == 3600)
      then some { db with nurse_slots :=
        db.nurse_slots.map (fun s =>
          if s.id == target
          then { s with start_time := newStart, end_time := newEnd,
                        status := newStatus }
          else s) }
      else none
    else some db

/-- Delete the `nurse_slots` row with id `target` by authenticated
identity `uid`. Only rows passing `USING (nurse_id = auth.uid())` are
deleted; `bookings.slot_id REFERENCES nurse_slots(id) ON DELETE CASCADE`
removes the bookings of a deleted slot. -/
def deleteNurseSlot (uid : Uuid) (target : Uuid) (db : DB) : DB :=
  let gone := fun (s : NurseSlotRow) => s.id == target && sqlEq s.nurse_id (some uid)
  { db with
    nurse_slots := db.nurse_slots.filter (fun s => !(gone s)),
    bookings := db.bookings.filter (fun b =>
      !(db.nurse_slots.any (fun s => gone s && sqlEq b.slot_id (some s.id)))) }

/-- Insert into `bookings` by authenticated identity `uid`.
Policy "Patients can create bookings": `WITH CHECK (patient_id = auth.uid()
AND EXISTS (SELECT 1 FROM profiles WHERE id = auth.uid() AND role =
'patient'))`. Constraints: primary key on `id`, foreign keys
`patient_id REFERENCES patient_profiles(id)`,
`nurse_id REFERENCES nurse_profiles(id)`,
`slot_id REFERENCES nurse_slots(id)`, and the status `CHECK`. -/
def insertBooking (uid : Uuid) (r : BookingRow) (db : DB) : Option DB :=
  if sqlEq r.patient_id (some uid)
      && db.profiles.any (fun p => p.id == uid && p.role == "patient")
      && fkOk r.patient_id db.patientProfileIds
      && fkOk r.nurse_id db.nurseProfileIds
      && fkOk r.slot_id db.nurseSlotIds
      && (r.status == "pending" || r.status == "confirmed"
          || r.status == "completed" || r.status == "cancelled")
      && !(db.bookings.any (fun b => b.id == r.id))
  then some { db with bookings := db.bookings ++ [r] }
  else none

/-- SELECT on `patient_profiles` by authenticated identity `uid`.
Policy "Patients can view their own profile": `USING (auth.uid() = id)`;
row-level security surfaces a denial as an invisible row. -/
def selectPatientProfiles (uid : Uuid) (db : DB) : List PatientProfileRow :=
  db.patient_profiles.filter (fun r => uid == r.id)

/-- SELECT on `service_areas` by any caller (the policy
"Public can view service areas" is `TO public USING (true)`, so the caller
may even be unauthenticated, modelled by an `Option Uuid` identity). -/
def selectServiceAreas (uid : Option Uuid) (db : DB) : List ServiceAreaRow :=
  match uid with
  | _ => db.service_areas.filter (fun _ => true)

/-- Delete the `profiles` row with id `u` (e.g. by the identity-provider
cascade), following every `ON DELETE CASCADE` edge:
`patient_profiles.id` and `nurse_profiles.id` reference `profiles(id)`;
`nurse_service_areas.nurse_id` and `nurse_slots.nurse_id` reference
`nurse_profiles(id)`; `bookings.patient_id`, `bookings.nurse_id` and
`bookings.slot_id` reference `patient_profiles`, `nurse_profiles` and
`nurse_slots` respectively. -/
def deleteProfile (u : Uuid) (db : DB) : DB :=
  { db with
    profiles := db.profiles.filter (fun p => !(p.id == u)),
    patient_profiles := db.patient_profiles.filter (fun r => !(r.id == u)),
    nurse_profiles := db.nurse_profiles.filter (fun r => !(r.id == u)),
    nurse_service_areas :=
      db.nurse_service_areas.filter (fun r => !(sqlEq r.nurse_id (some u))),
    nurse_slots :=
      db.nurse_slots.filter (fun s => !(sqlEq s.nurse_id (some u))),
    bookings := db.bookings.filter (fun b =>
      !(sqlEq b.patient_id (some u))
      && !(sqlEq b.nurse_id (some u))
      && !(db.nurse_slots.any (fun s =>
            sqlEq s.nurse_id (some u) && sqlEq b.slot_id (some s.id)))) }

/-! ### Policy catalog and the migration's effect on the system catalog -/

/-- A SQL command class a row-level-security policy can cover. -/
inductive SqlCmd
  | select
  | insert
  | update
  | delete
deriving DecidableEq

/-- Catalog metadata of one `CREATE POLICY` statement: its name, its
table, and the command classes it covers (`FOR ALL` covers all four). -/
structure PolicyMeta where
  policyname : String
  tablename : String
  cmds : List SqlCmd
deriving DecidableEq

/-- All four command classes, for a `FOR ALL` policy. -/
def allCmds : List SqlCmd := [.select, .insert, .update, .delete]

/-- The seventeen `CREATE POLICY` statements of the migration, in source
order. -/
def migrationPolicies : List PolicyMeta :=
  [ ⟨"Users can view their own profile", "profiles", [.select]⟩,
    ⟨"Users can update their own profile", "profiles", [.update]⟩,
    ⟨"Users can insert their own profile", "profiles", [.insert]⟩,
    ⟨"Public can view service areas", "service_areas", [.select]⟩,
    ⟨"Patients can view their own profile", "patient_profiles", [.select]⟩,
    ⟨"Patients can insert their own profile", "patient_profiles", [.insert]⟩,
    ⟨"Patients can update their own profile", "patient_profiles", [.update]⟩,
    ⟨"Public can view nurse profiles", "nurse_profiles", [.select]⟩,
    ⟨"Nurses can insert their own profile", "nurse_profiles", [.insert]⟩,
    ⟨"Nurses can update their own profile", "nurse_profiles", [.update]⟩,
    ⟨"Public can view nurse service areas", "nurse_service_areas", [.select]⟩,
    ⟨"Nurses can manage their service areas", "nurse_service_areas", allCmds⟩,
    ⟨"Public can view available slots", "nurse_slots", [.select]⟩,
    ⟨"Nurses can manage their slots", "nurse_slots", allCmds⟩,
    ⟨"Users can view their bookings", "bookings", [.select]⟩,
    ⟨"Patients can create bookings", "bookings", [.insert]⟩,
    ⟨"Users can update their bookings", "bookings", [.update]⟩ ]

/-- Whether some policy of the migration covers command `c` on table `t`.
With row-level security enabled, a command class covered by no policy is
denied by default for every policy-gated identity. -/
def rlsPermitsCmd (t : String) (c : SqlCmd) : Bool :=
  migrationPolicies.any (fun p => p.tablename == t && p.cmds.contains c)

/-- The state of the `public` schema's system catalog: which tables
exist, which `(tablename, policyname)` policies exist, and which tables
have row-level security enabled. -/
structure CatalogState where
  tables : Finset String
  policies : Finset (String × String)
  rlsEnabled : Finset String
deriving DecidableEq

/-- The seven tables the migration drops and recreates. -/
def migrationTables : Finset String :=
  {"bookings", "nurse_slots", "nurse_service_areas", "nurse_profiles",
   "patient_profiles", "profiles", "service_areas"}

/-- The `(tablename, policyname)` pairs the migration creates. -/
def migrationPolicySet : Finset (String × String) :=
  (migrationPolicies.map (fun p => (p.tablename, p.policyname))).toFinset

/-- One application of the migration to a catalog state, step by step:
drop every policy of schema `public` (enumerated dynamically from
`pg_policies`), drop the seven tables with `CASCADE` in reverse dependency
order, recreate them (`CREATE TABLE IF NOT EXISTS`, a union), enable
row-level security on every table now in `pg_tables`, then create the
seventeen policies. -/
def applyMigration (s : CatalogState) : CatalogState :=
  let afterPolicyDrop : CatalogState := { s with policies := ∅ }
  let afterTableDrop : CatalogState :=
    { afterPolicyDrop with
      tables := afterPolicyDrop.tables \ migrationTables,
      rlsEnabled := afterPolicyDrop.rlsEnabled \ migrationTables }
  let afterCreate : CatalogState :=
    { afterTableDrop with tables := afterTableDrop.tables ∪ migrationTables }
  let afterRls : CatalogState := { afterCreate with rlsEnabled := afterCreate.tables }
  { afterRls with policies := migrationPolicySet }

/-! ### The application's language toggle -/

/-- The UI language: `useState<'en' | 'ta'>('en')`. -/
inductive Language
  | en
  | ta
deriving DecidableEq

/-- The `nav` slice of `LanguageContent` as consumed by `Navigation`
(`content.home`, `content.services`, `content.about`, `content.contact`)
plus the `language` field `App` injects into `content.nav`. -/
structure NavContent where
  home : String
  services : String
  about : String
  contact : String
  language : Language
deriving DecidableEq

/-- A locale object of type `LanguageContent`. The locale files are not
part of the sources; the non-`nav` sections are opaque payloads. -/
structure LanguageContent where
  nav : NavContent
  hero : String
  services : String
  about : String
  contact : String
deriving DecidableEq

/-- `toggleLanguage`: `setLanguage(prev => prev === 'en' ? 'ta' : 'en')`. -/
def toggleLanguage (l : Language) : Language :=
  match l with
  | .en => .ta
  | .ta => .en

/-- The derived `content` object of `App`:
`{...(language === 'en' ? en : ta),
   nav: {...(language === 'en' ? en.nav : ta.nav), language}}`. -/
def appContent (language : Language) (enLoc taLoc : LanguageContent) :
    LanguageContent :=
  let base := if language = .en then enLoc else taLoc
  { base with nav := { base.nav with language := language } }

/-! ### Invariants and concrete states used by the theorems -/

/-- The invariant of claim C2: every `nurse_slots` row satisfies
`end_time > start_time` and a duration of exactly 3600 seconds. -/
def slotInvariant (db : DB) : Prop :=
  ∀ s ∈ db.nurse_slots,
    s.start_time < s.end_time ∧ s.end_time - s.start_time = 3600

/-- Referential integrity: every non-null foreign-key column points at an
existing parent row (`fkOk` is exactly the check the inserts perform). -/
def noDanglingRefs (db : DB) : Prop :=
  (∀ r ∈ db.patient_profiles, r.id ∈ db.profileIds)
  ∧ (∀ r ∈ db.nurse_profiles, r.id ∈ db.profileIds)
  ∧ (∀ r ∈ db.nurse_service_areas, fkOk r.nurse_id db.nurseProfileIds = true)
  ∧ (∀ s ∈ db.nurse_slots, fkOk s.nurse_id db.nurseProfileIds = true)
  ∧ (∀ b ∈ db.bookings,
      fkOk b.patient_id db.patientProfileIds = true
      ∧ fkOk b.nurse_id db.nurseProfileIds = true
      ∧ fkOk b.slot_id db.nurseSlotIds = true)

/-- The shared-primary-key invariant of claim C7: extension-table ids are
pairwise distinct (primary key) and reference existing `profiles` rows
(foreign key). -/
def extensionKeyInvariant (db : DB) : Prop :=
  db.patientProfileIds.Nodup
  ∧ db.nurseProfileIds.Nodup
  ∧ (∀ r ∈ db.patient_profiles, r.id ∈ db.profileIds)
  ∧ (∀ r ∈ db.nurse_profiles, r.id ∈ db.profileIds)

/-- The `UNIQUE(pincode, service_id)` invariant on `service_areas`. -/
def saPairwiseUnique (db : DB) : Prop :=
  List.Pairwise
    (fun a b : ServiceAreaRow =>
      ¬(a.pincode = b.pincode ∧ a.service_id = b.service_id))
    db.service_areas

/-- The `UNIQUE(nurse_id, pincode)` invariant on `nurse_service_areas`. -/
def nsaPairwiseUnique (db : DB) : Prop :=
  List.Pairwise
    (fun a b : NurseServiceAreaRow =>
      ¬(a.nurse_id = b.nurse_id ∧ a.pincode = b.pincode))
    db.nurse_service_areas

/-- A concrete database holding one `profiles` row with role `patient`. -/
def c1db : DB :=
  { profiles := [{ id := 1, role := "patient", name := "Test Patient" }] }

/-- A concrete `nurse_profiles` row whose id refers to the patient-role
`profiles` row of `c1db`. -/
def c1row : NurseProfileRow := { id := 1, qualification := "BSc Nursing" }

/-- The empty database. -/
def emptyDB : DB := {}

/-- A concrete 90-minute slot row (duration 5400 seconds). -/
def ninetyMinuteSlot : NurseSlotRow :=
  { id := 2, nurse_id := some 1, date := "2025-01-01",
    start_time := 32400, end_time := 37800 }

/-- A concrete database holding one `profiles` row with role `nurse`. -/
def c3db : DB :=
  { profiles := [{ id := 7, role := "nurse", name := "Test Nurse" }] }

/-- A concrete booking row asserting identity 7 as the patient. -/
def c3booking : BookingRow :=
  { id := 1, patient_id := some 7, nurse_id := none, slot_id := none,
    service_id := "home-care" }

/-- A concrete database holding one `patient_profiles` row with id 1. -/
def c4db : DB := { patient_profiles := [{ id := 1 }] }

/-- A concrete database exercising the full cascade chain: a nurse with a
slot and a booking over that slot. -/
def c6db : DB :=
  { profiles := [{ id := 1, role := "nurse", name := "Test Nurse" },
                 { id := 2, role := "patient", name := "Test Patient" }],
    patient_profiles := [{ id := 2 }],
    nurse_profiles := [{ id := 1, qualification := "BSc Nursing" }],
    nurse_service_areas := [{ id := 30, nurse_id := some 1, pincode := "600001" }],
    nurse_slots := [{ id := 10, nurse_id := some 1, date := "2025-01-01",
                      start_time := 32400, end_time := 36000 }],
    bookings := [{ id := 20, patient_id := some 2, nurse_id := some 1,
                   slot_id := some 10, service_id := "home-care" }] }

/-- A concrete database holding a patient-role profile, used to witness
the shared-primary-key invariant. -/
def c7db : DB :=
  { profiles := [{ id := 1, role := "patient", name := "Test Patient" }],
    patient_profiles := [{ id := 1 }] }

/-- A concrete database with one service area and one nurse coverage row,
used to witness the uniqueness constraints. -/
def c9db : DB :=
  { nurse_profiles := [{ id := 5, qualification := "BSc Nursing" }],
    service_areas := [{ id := 1, pincode := "600001", service_id := "home-care" }],
    nurse_service_areas := [{ id := 2, nurse_id := some 5, pincode := "600001" }] }

/-- A fresh `service_areas` row duplicating the `(pincode, service_id)`
pair already present in `c9db`. -/
def c9saRow : ServiceAreaRow :=
  { id := 3, pincode := "600001", service_id := "home-care" }

/-- A fresh `nurse_service_areas` row duplicating the `(nurse_id, pincode)`
pair already present in `c9db`. -/
def c9nsaRow : NurseServiceAreaRow :=
  { id := 4, nurse_id := some 5, pincode := "600001" }

/-! ### Theorems -/

/-- Helper: SQL equality against a non-null value holds exactly when the
column holds that value. -/
theorem sqlEq_some_iff (a : Option Uuid) (y : Uuid) :
    sqlEq a (some y) = true ↔ a = some y := by
  cases a <;> simp [sqlEq]

/-- Helper: SQL equality never holds against a null right operand. -/
theorem sqlEq_none (a : Option Uuid) : sqlEq a none = false := by
  cases a <;> simp [sqlEq]

/-- Claim C10: the language toggle is an involution on the App state:
toggling twice returns the original language, toggling once returns the
other language, and the derived content object is built wholly from the
`en` locale (with the language tag set to `en`) when the language is `en`,
and wholly from the `ta` locale when it is `ta`. -/
theorem toggleLanguage_involution_content :
    (∀ l : Language, toggleLanguage (toggleLanguage l) = l)
    ∧ toggleLanguage .en = .ta
    ∧ toggleLanguage .ta = .en
    ∧ (∀ enLoc taLoc : LanguageContent,
        appContent .en enLoc taLoc
          = { enLoc with nav := { enLoc.nav with language := .en } }
        ∧ appContent .ta enLoc taLoc
          = { taLoc with nav := { taLoc.nav with language := .ta } }) := by
  refine ⟨fun l => ?_, rfl, rfl, fun enLoc taLoc => ⟨?_, ?_⟩⟩
  · cases l <;> rfl
  · simp [appContent]
  · simp [appContent]

/-- Claim C5: applying the schema migration twice in succession, from any
starting catalog state, yields the same tables, policies and row-security
flags as applying it once: the drop-then-recreate migration is
idempotent on the catalog. -/
theorem applyMigration_idempotent (s : CatalogState) :
    applyMigration (applyMigration s) = applyMigration s := by
  simp only [applyMigration]
  congr 1 <;>
    rw [Finset.sdiff_union_self_eq_union, Finset.union_assoc, Finset.union_self]

/-- Claim C8: every caller, even unauthenticated, sees every
`service_areas` row under the `TO public USING (true)` SELECT policy, the
migration attaches no INSERT, UPDATE or DELETE policy to `service_areas`,
and the migration leaves row-level security enabled on `service_areas`, so
any policy-gated write to it is denied by default. -/
theorem service_areas_readonly_policy :
    (∀ (uid : Option Uuid) (db : DB), selectServiceAreas uid db = db.service_areas)
    ∧ rlsPermitsCmd "service_areas" .select = true
    ∧ rlsPermitsCmd "service_areas" .insert = false
    ∧ rlsPermitsCmd "service_areas" .update = false
    ∧ rlsPermitsCmd "service_areas" .delete = false
    ∧ (∀ s : CatalogState, "service_areas" ∈ (applyMigration s).rlsEnabled) := by
  refine ⟨fun uid db => ?_, by decide, by decide, by decide, by decide, fun s => ?_⟩
  · simp [selectServiceAreas]
  · simp only [applyMigration, Finset.mem_union]
    exact Or.inr (by decide)

/-- Claim C4: for every authenticated identity, a SELECT on
`patient_profiles` returns exactly the rows whose id equals that identity;
an identity that does not own a row receives no visible copy of it. -/
theorem patient_profiles_select_scope :
    (∀ (uid : Uuid) (db : DB) (r : PatientProfileRow),
        r ∈ selectPatientProfiles uid db ↔ r ∈ db.patient_profiles ∧ r.id = uid)
    ∧ (∀ (a b : Uuid) (db : DB) (r : PatientProfileRow),
        r.id = a → a ≠ b → r ∉ selectPatientProfiles b db) := by
  constructor
  · intro uid db r
    simp only [selectPatientProfiles, List.mem_filter, beq_iff_eq]
    constructor <;> rintro ⟨h1, h2⟩ <;> exact ⟨h1, h2.symm⟩
  · intro a b db r hid hne hmem
    simp [selectPatientProfiles, List.mem_filter] at hmem
    exact hne (by rw [← hid, hmem.2])

/-- Claim C1 counterexample: inserting a `nurse_profiles` row whose id
refers to a `profiles` row with role `patient` does NOT fail: the foreign
key only requires the id to exist in `profiles`, with no condition on its
role, so this concrete insert succeeds. -/
theorem nurseProfileInsert_role_mismatch_succeeds :
    (insertNurseProfile 1 c1row c1db).isSome = true
    ∧ (∃ p ∈ c1db.profiles, p.id = 1 ∧ p.role = "patient") := by
  constructor
  · decide
  · exact ⟨{ id := 1, role := "patient", name := "Test Patient" }, by decide⟩

/-- Claim C1 (amended): every row accepted into `patient_profiles` or
`nurse_profiles` has an id equal to an existing `profiles.id` (the foreign
key); the referenced row's role is not constrained. -/
theorem extension_insert_requires_existing_profile :
    (∀ (uid : Uuid) (r : NurseProfileRow) (db db' : DB),
        insertNurseProfile uid r db = some db' → r.id ∈ db.profileIds)
    ∧ (∀ (uid : Uuid) (r : PatientProfileRow) (db db' : DB),
        insertPatientProfile uid r db = some db' → r.id ∈ db.profileIds) := by
  constructor
  · intro uid r db db' h
    unfold insertNurseProfile at h
    split at h
    · next hcond =>
      simp only [Bool.and_eq_true] at hcond
      simpa using hcond.2
    · exact absurd h (by simp)
  · intro uid r db db' h
    unfold insertPatientProfile at h
    split at h
    · next hcond =>
      simp only [Bool.and_eq_true] at hcond
      simpa using hcond.2
    · exact absurd h (by simp)

/-- Witness for C1 (amended) at the concrete database `c1db`. -/
theorem extension_insert_requires_existing_profile_witness :
    insertNurseProfile 1 c1row c1db
      = some { c1db with nurse_profiles := [c1row] }
    ∧ (1 : Uuid) ∈ c1db.profileIds :=
  ⟨by decide,
   extension_insert_requires_existing_profile.1 1 c1row c1db
     { c1db with nurse_profiles := [c1row] } (by decide)⟩

/-- Witness for claim C4 at the concrete database `c4db`: identity 2
cannot see identity 1's `patient_profiles` row. -/
theorem patient_profiles_select_scope_witness :
    ({ id := 1 } : PatientProfileRow).id = 1 ∧ (1 : Uuid) ≠ 2
    ∧ ({ id := 1 } : PatientProfileRow) ∉ selectPatientProfiles 2 c4db :=
  ⟨rfl, by decide,
   patient_profiles_select_scope.2 1 2 c4db { id := 1 } rfl (by decide)⟩

/-- Claim C2: in a database whose `nurse_slots` rows all satisfy
`end_time > start_time` and a duration of exactly 3600 seconds, an insert
of a slot of any other duration (e.g. 90 minutes) fails, and every
operation on `nurse_slots` (insert, update, delete) preserves the
one-hour invariant. -/
theorem nurse_slots_one_hour_invariant (uid target : Uuid) (r : NurseSlotRow)
    (newStart newEnd : Nat) (newStatus : String) (db : DB)
    (h : slotInvariant db) :
    (r.end_time - r.start_time ≠ 3600 → insertNurseSlot uid r db = none)
    ∧ (∀ db', insertNurseSlot uid r db = some db' → slotInvariant db')
    ∧ (∀ db', updateNurseSlot uid target newStart newEnd newStatus db = some db'
        → slotInvariant db')
    ∧ slotInvariant (deleteNurseSlot uid target db) := by
  refine ⟨?_, ?_, ?_, ?_⟩
  · intro hdur
    have hb : (r.end_time - r.start_time == 3600) = false :=
      beq_eq_false_iff_ne.mpr hdur
    simp [insertNurseSlot, hb]
  · intro db' h'
    unfold insertNurseSlot at h'
    split at h'
    · next hcond =>
      cases h'
      simp only [Bool.and_eq_true, decide_eq_true_eq, beq_iff_eq] at hcond
      obtain ⟨⟨⟨⟨⟨hpol, hfk⟩, hpk⟩, hst⟩, hlt⟩, hdur⟩ := hcond
      intro s hs
      rcases List.mem_append.mp hs with hmem | hmem
      · exact h s hmem
      · rw [List.mem_singleton.mp hmem]
        exact ⟨hlt, hdur⟩
    · exact absurd h' (by simp)
  · intro db' h'
    unfold updateNurseSlot at h'
    split at h'
    · cases h'
      exact h
    · next old hfind =>
      split at h'
      · split at h'
        · next hchecks =>
          cases h'
          simp only [Bool.and_eq_true, decide_eq_true_eq, beq_iff_eq] at hchecks
          obtain ⟨⟨hst, hlt⟩, hdur⟩ := hchecks
          intro s hs
          obtain ⟨a, ha, rfl⟩ := List.mem_map.mp hs
          by_cases hta : (a.id == target) = true
          · simp only [hta, if_true]
            exact ⟨hlt, hdur⟩
          · simp only [hta, if_false]
            exact h a ha
        · exact absurd h' (by simp)
      · cases h'
        exact h
  · intro s hs
    exact h s (List.mem_filter.mp hs).1

/-- Witness for claim C2 at the empty database: a 90-minute insert
returns `none`. -/
theorem nurse_slots_one_hour_invariant_witness :
    slotInvariant emptyDB
    ∧ insertNurseSlot 1 ninetyMinuteSlot emptyDB = none :=
  ⟨by simp [slotInvariant, emptyDB],
   (nurse_slots_one_hour_invariant 1 2 ninetyMinuteSlot 32400 36000
      "available" emptyDB (by simp [slotInvariant, emptyDB])).1 (by decide)⟩

/-- Claim C3: an insert into `bookings` by authenticated identity `uid`
succeeds only if the row's `patient_id` equals `uid` and some `profiles`
row with that id carries role `patient`; when the (unique) `profiles` row
for `uid` carries role `nurse`, the insert is rejected. -/
theorem booking_insert_requires_patient_role (uid : Uuid) (r : BookingRow)
    (db : DB) :
    (∀ db', insertBooking uid r db = some db' →
        r.patient_id = some uid
        ∧ ∃ p ∈ db.profiles, p.id = uid ∧ p.role = "patient")
    ∧ (db.profileIds.Nodup →
        (∃ p ∈ db.profiles, p.id = uid ∧ p.role = "nurse") →
        insertBooking uid r db = none) := by
  constructor
  · intro db' h'
    unfold insertBooking at h'
    split at h'
    · next hcond =>
      simp only [Bool.and_eq_true] at hcond
      obtain ⟨⟨⟨⟨⟨⟨hpol, hrole⟩, _⟩, _⟩, _⟩, _⟩, _⟩ := hcond
      constructor
      · exact (sqlEq_some_iff r.patient_id uid).mp hpol
      · obtain ⟨p, hp, hpp⟩ := List.any_eq_true.mp hrole
        simp only [Bool.and_eq_true, beq_iff_eq] at hpp
        exact ⟨p, hp, hpp.1, hpp.2⟩
    · exact absurd h' (by simp)
  · intro hnd hq
    obtain ⟨q, hqmem, hqid, hqrole⟩ := hq
    have hany :
        db.profiles.any (fun p => p.id == uid && p.role == "patient")
          = false := by
      rw [List.any_eq_false]
      intro p hp
      simp only [Bool.and_eq_true, beq_iff_eq, not_and]
      intro hid hrole
      have hpq : p = q :=
        List.inj_on_of_nodup_map hnd hp hqmem (by rw [hid, hqid])
      rw [hpq, hqrole] at hrole
      exact absurd hrole (by decide)
    simp [insertBooking, hany]

/-- Helper: a non-null foreign-key check is satisfied exactly when the
value appears among the parent ids. -/
theorem fkOk_some_iff (x : Uuid) (ids : List Uuid) :
    fkOk (some x) ids = true ↔ x ∈ ids := by
  simp [fkOk]

/-- Helper: a key surviving into the image of a filtered list, provided
every carrier of that key passes the filter. -/
theorem mem_map_filter_of_mem {α : Type} (f : α → Uuid) (pred : α → Bool)
    (l : List α) (x : Uuid) (hx : x ∈ l.map f)
    (hkeep : ∀ a ∈ l, f a = x → pred a = true) :
    x ∈ (l.filter pred).map f := by
  obtain ⟨a, ha, rfl⟩ := List.mem_map.mp hx
  exact List.mem_map.mpr ⟨a, List.mem_filter.mpr ⟨ha, hkeep a ha rfl⟩, rfl⟩

/-- Witness for claim C3 at the concrete database `c3db`: identity 7,
whose `profiles` row carries role `nurse`, cannot create a booking. -/
theorem booking_insert_requires_patient_role_witness :
    c3db.profileIds.Nodup
    ∧ (∃ p ∈ c3db.profiles, p.id = 7 ∧ p.role = "nurse")
    ∧ insertBooking 7 c3booking c3db = none :=
  ⟨by decide, by decide,
   (booking_insert_requires_patient_role 7 c3booking c3db).2
     (by decide) (by decide)⟩

/-- Claim C6: deleting the `profiles` row with id `u` removes every
dependent row transitively — the extension rows with id `u`, the service
areas and slots of nurse `u`, and every booking whose `patient_id`,
`nurse_id` or `slot_id` chain reaches `u` — and referential integrity is
preserved: a database without dangling references has none after the
cascade. -/
theorem deleteProfile_cascades (u : Uuid) (db : DB) :
    (∀ p ∈ (deleteProfile u db).profiles, p.id ≠ u)
    ∧ (∀ r ∈ (deleteProfile u db).patient_profiles, r.id ≠ u)
    ∧ (∀ r ∈ (deleteProfile u db).nurse_profiles, r.id ≠ u)
    ∧ (∀ r ∈ (deleteProfile u db).nurse_service_areas, r.nurse_id ≠ some u)
    ∧ (∀ s ∈ (deleteProfile u db).nurse_slots, s.nurse_id ≠ some u)
    ∧ (∀ b ∈ (deleteProfile u db).bookings,
        b.patient_id ≠ some u ∧ b.nurse_id ≠ some u
        ∧ ∀ s ∈ db.nurse_slots, s.nurse_id = some u → b.slot_id ≠ some s.id)
    ∧ (noDanglingRefs db → noDanglingRefs (deleteProfile u db)) := by
  refine ⟨?_, ?_, ?_, ?_, ?_, ?_, ?_⟩
  · intro p hp
    simp only [deleteProfile] at hp
    simpa using (List.mem_filter.mp hp).2
  · intro r hr
    simp only [deleteProfile] at hr
    simpa using (List.mem_filter.mp hr).2
  · intro r hr
    simp only [deleteProfile] at hr
    simpa using (List.mem_filter.mp hr).2
  · intro r hr heq
    simp only [deleteProfile] at hr
    have h2 := (List.mem_filter.mp hr).2
    rw [heq] at h2
    simp [sqlEq] at h2
  · intro s hs heq
    simp only [deleteProfile] at hs
    have h2 := (List.mem_filter.mp hs).2
    rw [heq] at h2
    simp [sqlEq] at h2
  · intro b hb
    simp only [deleteProfile] at hb
    have h2 := (List.mem_filter.mp hb).2
    simp only [Bool.and_eq_true, Bool.not_eq_true'] at h2
    obtain ⟨⟨hpid, hnid⟩, hany⟩ := h2
    refine ⟨?_, ?_, ?_⟩
    · intro heq; rw [heq] at hpid; simp [sqlEq] at hpid
    · intro heq; rw [heq] at hnid; simp [sqlEq] at hnid
    · intro s hs hsn heq
      rw [List.any_eq_false] at hany
      have h3 := hany s hs
      rw [hsn, heq] at h3
      simp [sqlEq] at h3
  · rintro ⟨h1, h2, h3, h4, h5⟩
    refine ⟨?_, ?_, ?_, ?_, ?_⟩
    · intro r hr
      simp only [deleteProfile] at hr ⊢
      obtain ⟨hrmem, hkeep⟩ := List.mem_filter.mp hr
      simp only [DB.profileIds]
      apply mem_map_filter_of_mem _ _ _ _ (h1 r hrmem)
      intro a _ hfa
      have hne : r.id ≠ u := by simpa using hkeep
      simp [hfa, hne]
    · intro r hr
      simp only [deleteProfile] at hr ⊢
      obtain ⟨hrmem, hkeep⟩ := List.mem_filter.mp hr
      simp only [DB.profileIds]
      apply mem_map_filter_of_mem _ _ _ _ (h2 r hrmem)
      intro a _ hfa
      have hne : r.id ≠ u := by simpa using hkeep
      simp [hfa, hne]
    · intro r hr
      simp only [deleteProfile] at hr ⊢
      obtain ⟨hrmem, hkeep⟩ := List.mem_filter.mp hr
      cases hcase : r.nurse_id with
      | none => simp [fkOk]
      | some n =>
        have hold := h3 r hrmem
        rw [hcase] at hold
        rw [fkOk_some_iff] at hold
        rw [fkOk_some_iff]
        simp only [DB.nurseProfileIds] at hold ⊢
        apply mem_map_filter_of_mem _ _ _ _ hold
        intro a _ hfa
        have hne : n ≠ u := by
          intro hnu
          rw [hcase, hnu] at hkeep
          simp [sqlEq] at hkeep
        simp [hfa, hne]
    · intro s hs
      simp only [deleteProfile] at hs ⊢
      obtain ⟨hsmem, hkeep⟩ := List.mem_filter.mp hs
      cases hcase : s.nurse_id with
      | none => simp [fkOk]
      | some n =>
        have hold := h4 s hsmem
        rw [hcase] at hold
        rw [fkOk_some_iff] at hold
        rw [fkOk_some_iff]
        simp only [DB.nurseProfileIds] at hold ⊢
        apply mem_map_filter_of_mem _ _ _ _ hold
        intro a _ hfa
        have hne : n ≠ u := by
          intro hnu
          rw [hcase, hnu] at hkeep
          simp [sqlEq] at hkeep
        simp [hfa, hne]
    · intro b hb
      simp only [deleteProfile] at hb ⊢
      obtain ⟨hbmem, hbkeep⟩ := List.mem_filter.mp hb
      simp only [Bool.and_eq_true, Bool.not_eq_true'] at hbkeep
      obtain ⟨⟨hpid, hnid⟩, hany⟩ := hbkeep
      obtain ⟨hb1, hb2, hb3⟩ := h5 b hbmem
      refine ⟨?_, ?_, ?_⟩
      · cases hcase : b.patient_id with
        | none => simp [fkOk]
        | some p =>
          have hold := hb1
          rw [hcase, fkOk_some_iff] at hold
          rw [fkOk_some_iff]
          simp only [DB.patientProfileIds] at hold ⊢
          apply mem_map_filter_of_mem _ _ _ _ hold
          intro a _ hfa
          have hne : p ≠ u := by
            intro hpu
            rw [hcase, hpu] at hpid
            simp [sqlEq] at hpid
          simp [hfa, hne]
      · cases hcase : b.nurse_id with
        | none => simp [fkOk]
        | some n =>
          have hold := hb2
          rw [hcase, fkOk_some_iff] at hold
          rw [fkOk_some_iff]
          simp only [DB.nurseProfileIds] at hold ⊢
          apply mem_map_filter_of_mem _ _ _ _ hold
          intro a _ hfa
          have hne : n ≠ u := by
            intro hnu
            rw [hcase, hnu] at hnid
            simp [sqlEq] at hnid
          simp [hfa, hne]
      · cases hcase : b.slot_id with
        | none => simp [fkOk]
        | some t =>
          have hold := hb3
          rw [hcase, fkOk_some_iff] at hold
          rw [fkOk_some_iff]
          simp only [DB.nurseSlotIds] at hold ⊢
          apply mem_map_filter_of_mem _ _ _ _ hold
          intro a ha hfa
          rw [List.any_eq_false] at hany
          have h6 := hany a ha
          simp only [Bool.and_eq_true, not_and] at h6
          cases hcase2 : sqlEq a.nurse_id (some u) with
          | false => simp
          | true =>
            exfalso
            apply h6 hcase2
            rw [hcase, hfa]
            simp [sqlEq]

/-- Helper: in a list whose keys are pairwise distinct, at most one
element carries any given key. -/
theorem filter_key_length_le_one {α : Type} (f : α → Uuid) (l : List α)
    (hnd : (l.map f).Nodup) (i : Uuid) :
    (l.filter (fun a => f a == i)).length ≤ 1 := by
  induction l with
  | nil => simp
  | cons a t ih =>
    simp only [List.map_cons, List.nodup_cons] at hnd
    obtain ⟨hna, hnt⟩ := hnd
    rw [List.filter_cons]
    by_cases hai : (f a == i) = true
    · have ht : t.filter (fun b => f b == i) = [] := by
        rw [List.filter_eq_nil_iff]
        intro b hb
        simp only [beq_iff_eq]
        intro hbi
        exact hna (List.mem_map.mpr ⟨b, hb, by rw [hbi, beq_iff_eq.mp hai]⟩)
      simp [hai, ht]
    · simp only [hai, if_false]
      exact ih hnt

/-- Claim C7: the extension tables use the parent `profiles.id` as their
own primary key, so the insert operations preserve the shared-key
invariant, each id carries at most one `patient_profiles` and at most one
`nurse_profiles` row, and every accepted extension row references an
existing `profiles` row. -/
theorem extension_shared_primary_key (uid : Uuid) (db : DB)
    (h : extensionKeyInvariant db) :
    (∀ (r : PatientProfileRow) (db' : DB),
        insertPatientProfile uid r db = some db' → extensionKeyInvariant db')
    ∧ (∀ (r : NurseProfileRow) (db' : DB),
        insertNurseProfile uid r db = some db' → extensionKeyInvariant db')
    ∧ (∀ i : Uuid,
        (db.patient_profiles.filter (fun r => r.id == i)).length ≤ 1
        ∧ (db.nurse_profiles.filter (fun r => r.id == i)).length ≤ 1)
    ∧ (∀ (r : PatientProfileRow) (db' : DB),
        insertPatientProfile uid r db = some db' → r.id ∈ db.profileIds)
    ∧ (∀ (r : NurseProfileRow) (db' : DB),
        insertNurseProfile uid r db = some db' → r.id ∈ db.profileIds) := by
  obtain ⟨hnd1, hnd2, hfk1, hfk2⟩ := h
  refine ⟨?_, ?_, ?_, ?_, ?_⟩
  · intro r db' h'
    unfold insertPatientProfile at h'
    split at h'
    · next hcond =>
      cases h'
      simp only [Bool.and_eq_true, Bool.not_eq_true'] at hcond
      obtain ⟨⟨⟨hpol, hg⟩, hpk⟩, hfk⟩ := hcond
      refine ⟨?_, hnd2, ?_, hfk2⟩
      · simp only [DB.patientProfileIds, List.map_append, List.map_cons,
          List.map_nil]
        rw [List.nodup_append]
        refine ⟨hnd1, List.nodup_singleton _, ?_⟩
        intro x hx
        simp only [List.mem_singleton]
        intro hxr
        rw [hxr] at hx
        have : db.patientProfileIds.contains r.id = true := by
          simpa [DB.patientProfileIds] using hx
        rw [this] at hpk
        exact absurd hpk (by decide)
      · intro s hs
        rcases List.mem_append.mp hs with hmem | hmem
        · exact hfk1 s hmem
        · rw [List.mem_singleton.mp hmem]
          simpa using hfk
    · exact absurd h' (by simp)
  · intro r db' h'
    unfold insertNurseProfile at h'
    split at h'
    · next hcond =>
      cases h'
      simp only [Bool.and_eq_true, Bool.not_eq_true'] at hcond
      obtain ⟨⟨hpol, hpk⟩, hfk⟩ := hcond
      refine ⟨hnd1, ?_, hfk1, ?_⟩
      · simp only [DB.nurseProfileIds, List.map_append, List.map_cons,
          List.map_nil]
        rw [List.nodup_append]
        refine ⟨hnd2, List.nodup_singleton _, ?_⟩
        intro x hx
        simp only [List.mem_singleton]
        intro hxr
        rw [hxr] at hx
        have : db.nurseProfileIds.contains r.id = true := by
          simpa [DB.nurseProfileIds] using hx
        rw [this] at hpk
        exact absurd hpk (by decide)
      · intro s hs
        rcases List.mem_append.mp hs with hmem | hmem
        · exact hfk2 s hmem
        · rw [List.mem_singleton.mp hmem]
          simpa using hfk
    · exact absurd h' (by simp)
  · intro i
    refine ⟨filter_key_length_le_one (fun r => r.id) db.patient_profiles ?_ i,
            filter_key_length_le_one (fun r => r.id) db.nurse_profiles ?_ i⟩
    · exact hnd1
    · exact hnd2
  · intro r db' h'
    unfold insertPatientProfile at h'
    split at h'
    · next hcond =>
      simp only [Bool.and_eq_true] at hcond
      simpa using hcond.2
    · exact absurd h' (by simp)
  · intro r db' h'
    unfold insertNurseProfile at h'
    split at h'
    · next hcond =>
      simp only [Bool.and_eq_true] at hcond
      simpa using hcond.2
    · exact absurd h' (by simp)

/-- Witness for claim C7 at the concrete database `c7db`. -/
theorem extension_shared_primary_key_witness :
    extensionKeyInvariant c7db
    ∧ ((c7db.patient_profiles.filter (fun r => r.id == 1)).length ≤ 1
        ∧ (c7db.nurse_profiles.filter (fun r => r.id == 1)).length ≤ 1) :=
  ⟨by unfold extensionKeyInvariant; decide,
   (extension_shared_primary_key 1 c7db
     (by unfold extensionKeyInvariant; decide)).2.2.1 1⟩

/-- Witness for claim C6 at the concrete database `c6db`: deleting the
nurse's profile leaves no dangling reference. -/
theorem deleteProfile_cascades_witness :
    noDanglingRefs c6db ∧ noDanglingRefs (deleteProfile 1 c6db) :=
  ⟨by unfold noDanglingRefs; decide,
   (deleteProfile_cascades 1 c6db).2.2.2.2.2.2
     (by unfold noDanglingRefs; decide)⟩

/-- Claim C9: an insert or update that would duplicate an existing
`(pincode, service_id)` pair in `service_areas`, or an existing
`(nurse_id, pincode)` pair in `nurse_service_areas`, fails (returns
`none`, leaving the table unchanged), and the operations preserve the
pairwise-uniqueness invariants of both tables. -/
theorem service_area_uniqueness (uid target : Uuid) (rSA : ServiceAreaRow)
    (rN : NurseServiceAreaRow) (newPincode newService newPin : String)
    (db : DB) :
    ((db.service_areas.any (fun p =>
        p.pincode == rSA.pincode && p.service_id == rSA.service_id)) = true →
      insertServiceAreaPrivileged rSA db = none)
    ∧ ((db.service_areas.any (fun p => p.id == target)) = true →
       (db.service_areas.any (fun p => p.id != target
          && p.pincode == newPincode && p.service_id == newService)) = true →
       updateServiceAreaPrivileged target newPincode newService db = none)
    ∧ ((db.nurse_service_areas.any (fun s =>
        sqlEq s.nurse_id rN.nurse_id && s.pincode == rN.pincode)) = true →
      insertNurseServiceArea uid rN db = none)
    ∧ (∀ old,
        db.nurse_service_areas.find? (fun s => s.id == target) = some old →
        sqlEq old.nurse_id (some uid) = true →
        (db.nurse_service_areas.any (fun s => s.id != target
          && sqlEq s.nurse_id old.nurse_id && s.pincode == newPin)) = true →
        updateNurseServiceArea uid target newPin db = none)
    ∧ (saPairwiseUnique db → ∀ db',
        insertServiceAreaPrivileged rSA db = some db' → saPairwiseUnique db')
    ∧ (nsaPairwiseUnique db → ∀ db',
        insertNurseServiceArea uid rN db = some db' → nsaPairwiseUnique db')
    ∧ (saPairwiseUnique db → (db.service_areas.map (·.id)).Nodup → ∀ db',
        updateServiceAreaPrivileged target newPincode newService db = some db' →
        saPairwiseUnique db')
    ∧ (nsaPairwiseUnique db → (db.nurse_service_areas.map (·.id)).Nodup →
        ∀ db', updateNurseServiceArea uid target newPin db = some db' →
        nsaPairwiseUnique db') := by
  refine ⟨?_, ?_, ?_, ?_, ?_, ?_, ?_, ?_⟩
  · intro hdup
    simp [insertServiceAreaPrivileged, hdup]
  · intro hex hconf
    simp [updateServiceAreaPrivileged, hex, hconf]
  · intro hdup
    simp [insertNurseServiceArea, hdup]
  · intro old hfind hpol hconf
    simp [updateNurseServiceArea, hfind, hpol, hconf]
  · intro hPW db' h'
    unfold insertServiceAreaPrivileged at h'
    split at h'
    · next hcond =>
      cases h'
      simp only [Bool.and_eq_true, Bool.not_eq_true'] at hcond
      obtain ⟨hid, hpair⟩ := hcond
      simp only [saPairwiseUnique] at hPW ⊢
      rw [List.pairwise_append]
      refine ⟨hPW, List.pairwise_singleton _ _, ?_⟩
      intro a ha b hb
      rw [List.mem_singleton.mp hb]
      rw [List.any_eq_false] at hpair
      have h6 := hpair a ha
      simp only [Bool.and_eq_true, beq_iff_eq, not_and] at h6
      rintro ⟨e1, e2⟩
      exact h6 e1 e2
    · exact absurd h' (by simp)
  · intro hPW db' h'
    unfold insertNurseServiceArea at h'
    split at h'
    · next hcond =>
      cases h'
      simp only [Bool.and_eq_true, Bool.not_eq_true'] at hcond
      obtain ⟨⟨⟨hpol, hfk⟩, hid⟩, hpair⟩ := hcond
      have hpol2 : rN.nurse_id = some uid := (sqlEq_some_iff _ _).mp hpol
      simp only [nsaPairwiseUnique] at hPW ⊢
      rw [List.pairwise_append]
      refine ⟨hPW, List.pairwise_singleton _ _, ?_⟩
      intro a ha b hb
      rw [List.mem_singleton.mp hb]
      rw [List.any_eq_false] at hpair
      have h6 := hpair a ha
      simp only [Bool.and_eq_true, beq_iff_eq, not_and] at h6
      rintro ⟨e1, e2⟩
      apply h6 ?_ e2
      rw [e1, hpol2]
      simp [sqlEq]
    · exact absurd h' (by simp)
  · intro hPW hnd db' h'
    unfold updateServiceAreaPrivileged at h'
    split at h'
    · split at h'
      · exact absurd h' (by simp)
      · next hconf =>
        cases h'
        simp only [saPairwiseUnique] at hPW ⊢
        rw [List.pairwise_map]
        simp only [List.any_eq_true, not_exists, not_and] at hconf
        have hpw2 : List.Pairwise (fun a b : ServiceAreaRow =>
            (¬(a.pincode = b.pincode ∧ a.service_id = b.service_id))
            ∧ a.id ≠ b.id) db.service_areas :=
          List.Pairwise.and hPW (List.pairwise_map.mp hnd)
        refine List.Pairwise.imp_of_mem ?_ hpw2
        intro a b ha hb hr
        obtain ⟨hRab, hneq⟩ := hr
        by_cases hat : (a.id == target) = true
        · by_cases hbt : (b.id == target) = true
          · exact absurd ((beq_iff_eq.mp hat).trans (beq_iff_eq.mp hbt).symm)
              hneq
          · rw [if_pos hat, if_neg hbt]
            dsimp only
            have h6 := hconf b hb
            simp only [Bool.and_eq_true, beq_iff_eq, bne_iff_ne, not_and]
              at h6
            rintro ⟨e1, e2⟩
            exact h6 ⟨by simpa using hbt, e1.symm⟩ e2.symm
        · by_cases hbt : (b.id == target) = true
          · rw [if_pos hbt, if_neg hat]
            dsimp only
            have h6 := hconf a ha
            simp only [Bool.and_eq_true, beq_iff_eq, bne_iff_ne, not_and]
              at h6
            rintro ⟨e1, e2⟩
            exact h6 ⟨by simpa using hat, e1⟩ e2
          · rw [if_neg hat, if_neg hbt]
            exact hRab
    · cases h'
      exact hPW
  · intro hPW hnd db' h'
    unfold updateNurseServiceArea at h'
    split at h'
    · cases h'
      exact hPW
    · next old hfind =>
      have hold_mem : old ∈ db.nurse_service_areas :=
        List.mem_of_find?_eq_some hfind
      have hold_id : old.id = target := by
        have := List.find?_some hfind
        simpa using this
      split at h'
      · next hpol =>
        split at h'
        · exact absurd h' (by simp)
        · next hconf =>
          cases h'
          have hpol2 : old.nurse_id = some uid := (sqlEq_some_iff _ _).mp hpol
          simp only [nsaPairwiseUnique] at hPW ⊢
          rw [List.pairwise_map]
          simp only [List.any_eq_true, not_exists, not_and] at hconf
          have hpw2 : List.Pairwise (fun a b : NurseServiceAreaRow =>
              (¬(a.nurse_id = b.nurse_id ∧ a.pincode = b.pincode))
              ∧ a.id ≠ b.id) db.nurse_service_areas :=
            List.Pairwise.and hPW (List.pairwise_map.mp hnd)
          refine List.Pairwise.imp_of_mem ?_ hpw2
          intro a b ha hb hr
          obtain ⟨hRab, hneq⟩ := hr
          by_cases hat : (a.id == target) = true
          · by_cases hbt : (b.id == target) = true
            · exact absurd ((beq_iff_eq.mp hat).trans (beq_iff_eq.mp hbt).symm)
                hneq
            · have haold : a = old :=
                List.inj_on_of_nodup_map hnd ha hold_mem
                  (by rw [beq_iff_eq.mp hat, hold_id])
              rw [if_pos hat, if_neg hbt]
              dsimp only
              have h6 := hconf b hb
              simp only [Bool.and_eq_true, beq_iff_eq, bne_iff_ne, not_and]
                at h6
              rintro ⟨e1, e2⟩
              refine h6 ⟨by simpa using hbt, ?_⟩ e2.symm
              rw [← e1, haold, hpol2]
              simp [sqlEq]
          · by_cases hbt : (b.id == target) = true
            · have hbold : b = old :=
                List.inj_on_of_nodup_map hnd hb hold_mem
                  (by rw [beq_iff_eq.mp hbt, hold_id])
              rw [if_pos hbt, if_neg hat]
              dsimp only
              have h6 := hconf a ha
              simp only [Bool.and_eq_true, beq_iff_eq, bne_iff_ne, not_and]
                at h6
              rintro ⟨e1, e2⟩
              refine h6 ⟨by simpa using hat, ?_⟩ e2
              rw [e1, hbold, hpol2]
              simp [sqlEq]
            · rw [if_neg hat, if_neg hbt]
              exact hRab
      · cases h'
        exact hPW

/-- Witness for claim C9 at the concrete database `c9db`: a duplicate
`(pincode, service_id)` insert and a duplicate `(nurse_id, pincode)`
insert both fail. -/
theorem service_area_uniqueness_witness :
    (c9db.service_areas.any (fun p =>
        p.pincode == c9saRow.pincode && p.service_id == c9saRow.service_id))
      = true
    ∧ insertServiceAreaPrivileged c9saRow c9db = none
    ∧ (c9db.nurse_service_areas.any (fun s =>
        sqlEq s.nurse_id c9nsaRow.nurse_id && s.pincode == c9nsaRow.pincode))
      = true
    ∧ insertNurseServiceArea 5 c9nsaRow c9db = none :=
  ⟨by decide,
   (service_area_uniqueness 5 0 c9saRow c9nsaRow "" "" "" c9db).1 (by decide),
   by decide,
   (service_area_uniqueness 5 0 c9saRow c9nsaRow "" "" "" c9db).2.2.1
     (by decide)⟩

end Naeyam
